import Mathlib

/-!
Verification of the `oh-snap` crate (`src/lib.rs`): a reference-counted
immutable buffer (`Arc<Vec<T>>`) together with a movable view
(`range: Range<usize>`) into it, supporting zero-copy splitting (`snap`),
re-merging (`merge`), chunking (`chunks`) and ownership reclamation
(`try_unwrap`).

Embedding notes.
* `Snap<T> { buf: Arc<Vec<T>>, range: Range<usize> }` is embedded as a
  structure carrying the full backing list `buf` (the contents of the
  `Arc<Vec<T>>`), the half-open range `[start, stop)`, and two addresses:
  `arc`, the address of the `Arc` control block (the identity of the
  shared handle, which `Arc::try_unwrap` counts), and `ptr`, the value of
  `buf.as_ptr()` — the `Vec`'s data pointer, which `merge`'s origin
  assertion compares.
* `Vec::as_ptr` on a vector that never allocated (an empty `vec![]`)
  returns the dangling pointer `NonNull::dangling()`, whose address is
  `align_of::<T>()` — the same value for every unallocated `Vec<T>`.  We
  model this with the reserved address `0`: `new` assigns data pointer `0`
  to an empty vector and a fresh nonzero address to a nonempty one.
* Allocation is modelled by a memory state `Mem` holding the strong count
  of each `Arc` control block and a fresh-address counter.  `snap`,
  `merge` and the read-only accessors do not consult the counts in the
  Rust source, so they are embedded as pure functions on `Snap`; only
  `new` (which allocates) and `try_unwrap` (which reads the strong count
  at the moment of the call) mention `Mem`.
* Rust panics (failed `assert!`, out-of-bounds `Index::index`, the
  divide-by-zero in `chunks`'s capacity computation) are embedded as
  `Except.error` carrying the panic message; machine integers are `Nat`
  (`usize` overflow is not reachable in the quantities the theorems
  speak about, since all indices stay bounded by the buffer length).
-/

/-- Embedding of `Snap<T> { buf: Arc<Vec<T>>, range: Range<usize> }`.  `arc` is the
address of the `Arc` control block, `ptr` the value of `buf.as_ptr()`
(`0` models the dangling pointer of an allocation-free empty `Vec`),
`buf` the full contents of the backing vector, and `[start, stop)` the
view's `range` (`stop` renders the Rust field `range.end`). -/
structure Snap (α : Type) where
  arc : Nat
  ptr : Nat
  buf : List α
  start : Nat
  stop : Nat
  deriving DecidableEq

/-- The heap state surrounding the `Arc`s: the strong count of each
control-block address, and the next fresh address (`0` is reserved for
the dangling data pointer of empty vectors). -/
structure Mem where
  counts : Nat → Nat
  nextAddr : Nat

/-- An initial memory: no live `Arc`s, fresh addresses start at `1`. -/
def Mem.init : Mem :=
  { counts := fun _ => 0, nextAddr := 1 }

namespace Snap

variable {α : Type}

/-- Rust `Snap::new(vec)`: wrap an owned vector, view covering `0..vec.len()`.
`Arc::new` always allocates a control block (address `m.nextAddr`); the
`Vec`'s data pointer is the shared dangling value `0` if the vector is
empty (no allocation), else a fresh address. -/
def new (vec : List α) (m : Mem) : Snap α × Mem :=
  (⟨m.nextAddr, if vec.isEmpty then 0 else m.nextAddr + 1, vec, 0, vec.length⟩,
   ⟨fun a => if a = m.nextAddr then 1 else m.counts a, m.nextAddr + 2⟩)

/-- Rust `Snap::len`, i.e. `self.range.len()` — length of the current view. -/
def len (s : Snap α) : Nat :=
  s.stop - s.start

/-- The pair of views built in the body of `Snap::snap` after its range
assertion: left covers `start..start+i`, right covers `start+i..stop`;
both share the buffer handle. -/
def split (s : Snap α) (i : Nat) : Snap α × Snap α :=
  (⟨s.arc, s.ptr, s.buf, s.start, s.start + i⟩,
   ⟨s.arc, s.ptr, s.buf, s.start + i, s.stop⟩)

/-- Rust `Snap::snap(self, at)`: asserts `(0..=self.len()).contains(&at)`
(the failure message is the panic text) and splits the view at `at`. -/
def snap (s : Snap α) (i : Nat) : Except String (Snap α × Snap α) :=
  if i ≤ s.len then .ok (s.split i) else .error "`snap`-ing out of range"

/-- Rust `Snap::merge(left, right)`: asserts `left.buf.as_ptr() ==
right.buf.as_ptr()` then `left.range.end == right.range.start`, and
returns the view over `left.range.start..right.range.end` holding
`left`'s buffer handle.  The messages are the two panic texts (the
second typo included). -/
def merge (left right : Snap α) : Except String (Snap α) :=
  if left.ptr = right.ptr then
    if left.stop = right.start then
      .ok ⟨left.arc, left.ptr, left.buf, left.start, right.stop⟩
    else .error "merging non-continuogus `Snaps`"
  else .error "merging `Snaps` of different origins"

/-- Rust `Snap::as_slice`: `&self.buf[self.range.clone()]`. -/
def as_slice (s : Snap α) : List α :=
  (s.buf.drop s.start).take (s.stop - s.start)

/-- Rust `Snap::get` at a `usize` position: `self.as_slice().get(index)`. -/
def get (s : Snap α) (i : Nat) : Option α :=
  s.as_slice[i]?

/-- Rust `Snap::get` at a `Range<usize>` index: slice `get` returns the
sub-slice iff `lo ≤ hi` and `hi ≤ slice.len()`, else `None`. -/
def get_range (s : Snap α) (lo hi : Nat) : Option (List α) :=
  if lo ≤ hi ∧ hi ≤ s.as_slice.length then
    some ((s.as_slice.drop lo).take (hi - lo))
  else none

/-- The `Index` impl for `Snap`: `Index::index(self.as_slice(), index)`,
which panics (here: errors) at an out-of-bounds position. -/
def index (s : Snap α) (i : Nat) : Except String α :=
  match s.as_slice[i]? with
  | some x => .ok x
  | none => .error "index out of bounds"

/-- The `while self.len() > chunk_size` loop of `Snap::chunks`: snap off
a `chunk_size`-element chunk from the front while more than `chunk_size`
elements remain, then push the remainder.  Inside the loop the split
offset `chunk_size < len` is in range, so `split` is exact.  Terminates
because each iteration removes `chunk_size ≥ 1` elements. -/
def chunksGo (s : Snap α) (k : Nat) (hk : 0 < k) : List (Snap α) :=
  if _h : k < s.len then
    (s.split k).1 :: chunksGo (s.split k).2 k hk
  else
    [s]
termination_by s.len
decreasing_by
  simp only [split, len] at *
  omega

/-- Rust `Snap::chunks(self, chunk_size)`.  The first statement evaluates
`Vec::with_capacity((self.len() + chunk_size - 1) / chunk_size)`; with
`chunk_size = 0` that computation panics (divide by zero in a release
build; with `self.len() = 0` a debug build already panics at the
subtraction), so the call fails before the loop can run. -/
def chunks (s : Snap α) (k : Nat) : Except String (List (Snap α)) :=
  if hk : k = 0 then .error "attempt to divide by zero"
  else .ok (chunksGo s k (Nat.pos_of_ne_zero hk))

/-- Rust `Snap::try_unwrap(self)`: `Arc::try_unwrap(self.buf)` succeeds iff
the strong count of this view's `Arc` is `1`, returning the whole
backing vector; on failure the view is rebuilt with the same handle and
the same range, i.e. returned unchanged. -/
def try_unwrap (s : Snap α) (m : Mem) : Except (Snap α) (List α) :=
  if m.counts s.arc = 1 then .ok s.buf else .error s

end Snap

/-- Left-fold of `Snap.merge` over a list of views, starting from `acc`. -/
def foldMergeGo {α : Type} (acc : Snap α) : List (Snap α) → Except String (Snap α)
  | [] => .ok acc
  | c :: cs =>
    match Snap.merge acc c with
    | .ok w => foldMergeGo w cs
    | .error e => .error e

/-- Repeated `Snap.merge` over a nonempty list of views, in order. -/
def foldMerge {α : Type} : List (Snap α) → Except String (Snap α)
  | [] => .error "nothing to merge"
  | c :: cs => foldMergeGo c cs

/-- Views obtainable from `s0` by successful `snap`s and `merge`s (the
operations that create new views from existing ones). -/
inductive DerivedFrom {α : Type} : Snap α → Snap α → Prop where
  | refl (s : Snap α) : DerivedFrom s s
  | splitLeft {s0 s : Snap α} {i : Nat} :
      DerivedFrom s0 s → i ≤ s.len → DerivedFrom s0 (s.split i).1
  | splitRight {s0 s : Snap α} {i : Nat} :
      DerivedFrom s0 s → i ≤ s.len → DerivedFrom s0 (s.split i).2
  | mergeOk {s0 l r s : Snap α} :
      DerivedFrom s0 l → DerivedFrom s0 r → Snap.merge l r = .ok s →
      DerivedFrom s0 s

theorem merge_eq_ok_iff {α : Type} (l r w : Snap α) :
    Snap.merge l r = .ok w ↔
      l.ptr = r.ptr ∧ l.stop = r.start ∧ w = ⟨l.arc, l.ptr, l.buf, l.start, r.stop⟩ := by
  unfold Snap.merge
  split_ifs with h1 h2 <;> simp_all [eq_comm]

theorem snap_eq_ok_iff {α : Type} (s : Snap α) (i : Nat) (p : Snap α × Snap α) :
    Snap.snap s i = .ok p ↔ i ≤ s.len ∧ p = s.split i := by
  unfold Snap.snap
  split_ifs with h <;> simp_all [eq_comm]

theorem DerivedFrom.origin_eq {α : Type} {s0 s : Snap α} (h : DerivedFrom s0 s) :
    s.arc = s0.arc ∧ s.ptr = s0.ptr ∧ s.buf = s0.buf := by
  induction h with
  | refl => exact ⟨rfl, rfl, rfl⟩
  | splitLeft hd hle ih => simpa [Snap.split] using ih
  | splitRight hd hle ih => simpa [Snap.split] using ih
  | mergeOk hl hr hm ihl ihr =>
    obtain ⟨hp, hs, rfl⟩ := (merge_eq_ok_iff ..).mp hm
    simpa using ihl

theorem chunksGo_stop {α : Type} {s : Snap α} {k : Nat} (hk : 0 < k) (h : ¬ k < s.len) :
    Snap.chunksGo s k hk = [s] := by
  rw [Snap.chunksGo]
  simp [h]

theorem chunksGo_step {α : Type} {s : Snap α} {k : Nat} (hk : 0 < k) (h : k < s.len) :
    Snap.chunksGo s k hk = (s.split k).1 :: Snap.chunksGo (s.split k).2 k hk := by
  rw [Snap.chunksGo]
  simp [h]

theorem chunksGo_ne_nil {α : Type} (s : Snap α) (k : Nat) (hk : 0 < k) :
    Snap.chunksGo s k hk ≠ [] := by
  by_cases h : k < s.len
  · rw [chunksGo_step hk h]
    simp
  · rw [chunksGo_stop hk h]
    simp

theorem chunksGo_origin {α : Type} (s : Snap α) (k : Nat) (hk : 0 < k) :
    ∀ c ∈ Snap.chunksGo s k hk, c.arc = s.arc ∧ c.ptr = s.ptr ∧ c.buf = s.buf := by
  induction s, k, hk using Snap.chunksGo.induct with
  | case1 s k hk h ih =>
    rw [chunksGo_step hk h]
    intro c hc
    rcases List.mem_cons.mp hc with rfl | hc
    · exact ⟨rfl, rfl, rfl⟩
    · simpa [Snap.split] using ih c hc
  | case2 s k hk h =>
    rw [chunksGo_stop hk h]
    intro c hc
    obtain rfl := List.mem_singleton.mp hc
    exact ⟨rfl, rfl, rfl⟩

theorem chunksGo_head_start {α : Type} (s : Snap α) (k : Nat) (hk : 0 < k) :
    (Snap.chunksGo s k hk).head?.map Snap.start = some s.start := by
  by_cases h : k < s.len
  · rw [chunksGo_step hk h]
    rfl
  · rw [chunksGo_stop hk h]
    rfl

theorem chunksGo_getLast_stop {α : Type} (s : Snap α) (k : Nat) (hk : 0 < k) :
    (Snap.chunksGo s k hk).getLast?.map Snap.stop = some s.stop := by
  induction s, k, hk using Snap.chunksGo.induct with
  | case1 s k hk h ih =>
    rw [chunksGo_step hk h]
    obtain ⟨b, l', htl⟩ := List.exists_cons_of_ne_nil (chunksGo_ne_nil (s.split k).2 k hk)
    rw [htl, List.getLast?_cons_cons, ← htl]
    simpa [Snap.split] using ih
  | case2 s k hk h =>
    rw [chunksGo_stop hk h]
    rfl

theorem chunksGo_chain {α : Type} (s : Snap α) (k : Nat) (hk : 0 < k) :
    List.Chain' (fun a b => a.stop = b.start) (Snap.chunksGo s k hk) := by
  induction s, k, hk using Snap.chunksGo.induct with
  | case1 s k hk h ih =>
    rw [chunksGo_step hk h]
    refine List.chain'_cons'.mpr ⟨?_, ih⟩
    intro b hb
    have hh := chunksGo_head_start (s.split k).2 k hk
    rw [Option.mem_def] at hb
    rw [hb] at hh
    simp only [Option.map_some', Option.some.injEq] at hh
    simpa [Snap.split] using hh.symm
  | case2 s k hk h =>
    rw [chunksGo_stop hk h]
    simp

theorem chunksGo_length {α : Type} (s : Snap α) (k : Nat) (hk : 0 < k) :
    (Snap.chunksGo s k hk).length = if s.len = 0 then 1 else (s.len + k - 1) / k := by
  induction s, k, hk using Snap.chunksGo.induct with
  | case1 s k hk h ih =>
    have h1 : (s.split k).2.len = s.len - k := by
      simp only [Snap.split, Snap.len]
      omega
    rw [chunksGo_step hk h, List.length_cons, ih, h1,
        if_neg (by omega), if_neg (by omega)]
    have e1 : s.len - k + k - 1 = s.len - 1 := by omega
    have e2 : s.len + k - 1 = (s.len - 1) + k := by omega
    rw [e1, e2, Nat.add_div_right _ hk]
  | case2 s k hk h =>
    rw [chunksGo_stop hk h, List.length_singleton]
    by_cases h0 : s.len = 0
    · rw [if_pos h0]
    · rw [if_neg h0]
      have e2 : s.len + k - 1 = (s.len - 1) + k := by omega
      have e0 : (s.len - 1) / k = 0 := Nat.div_eq_of_lt (by omega)
      rw [e2, Nat.add_div_right _ hk, e0]

theorem chunksGo_foldMergeGo {α : Type} (s : Snap α) (k : Nat) (hk : 0 < k) :
    ∀ acc : Snap α, acc.ptr = s.ptr → acc.stop = s.start →
      foldMergeGo acc (Snap.chunksGo s k hk) =
        .ok ⟨acc.arc, acc.ptr, acc.buf, acc.start, s.stop⟩ := by
  induction s, k, hk using Snap.chunksGo.induct with
  | case1 s k hk h ih =>
    intro acc hp hs
    rw [chunksGo_step hk h]
    have hm : Snap.merge acc (s.split k).1 =
        .ok ⟨acc.arc, acc.ptr, acc.buf, acc.start, s.start + k⟩ := by
      simp [Snap.merge, Snap.split, hp, hs]
    simp only [foldMergeGo, hm]
    exact ih ⟨acc.arc, acc.ptr, acc.buf, acc.start, s.start + k⟩ hp rfl
  | case2 s k hk h =>
    intro acc hp hs
    rw [chunksGo_stop hk h]
    simp [foldMergeGo, Snap.merge, hp, hs]

theorem foldMerge_chunksGo {α : Type} (s : Snap α) (k : Nat) (hk : 0 < k) :
    foldMerge (Snap.chunksGo s k hk) = .ok s := by
  by_cases h : k < s.len
  · rw [chunksGo_step hk h]
    simp only [foldMerge]
    rw [chunksGo_foldMergeGo (s.split k).2 k hk (s.split k).1 rfl rfl]
    rfl
  · rw [chunksGo_stop hk h]
    simp [foldMerge, foldMergeGo]

/-- A concrete view over `[0, 1, 2, 3]`, built by `new` from an initial
memory (the spec's running example). -/
def sampleView4 : Snap Nat :=
  (Snap.new [0, 1, 2, 3] Mem.init).1

/-- A concrete view over `[0, ..., 15]` (the spec's chunking scenario). -/
def sampleView16 : Snap Nat :=
  (Snap.new [0, 1, 2, 3, 4, 5, 6, 7, 8, 9, 10, 11, 12, 13, 14, 15] Mem.init).1

/-- Claim C1: for every view `v` and every offset `at` with
`0 ≤ at ≤ v.len()` (expressed as `v.snap(at)` succeeding), merging the
two views produced by `v.snap(at)`, in the order produced, yields a view
with the same range and the same element contents as `v` — `merge` is
the exact algebraic inverse of `snap`. -/
theorem snap_merge_roundtrip {α : Type} (v l r : Snap α) (i : Nat)
    (h : Snap.snap v i = .ok (l, r)) :
    ∃ w, Snap.merge l r = .ok w ∧ w.start = v.start ∧ w.stop = v.stop
      ∧ w.as_slice = v.as_slice := by
  obtain ⟨hle, hp⟩ := (snap_eq_ok_iff v i (l, r)).mp h
  have hl : l = (v.split i).1 := by rw [← hp]
  have hr : r = (v.split i).2 := by rw [← hp]
  subst hl
  subst hr
  exact ⟨v, (merge_eq_ok_iff (v.split i).1 (v.split i).2 v).mpr ⟨rfl, rfl, rfl⟩,
    rfl, rfl, rfl⟩

/-- Witness for C1 at the spec scenario `new([0,1,2,3]).snap(2)`. -/
theorem snap_merge_roundtrip_witness :
    ∃ w, Snap.merge (sampleView4.split 2).1 (sampleView4.split 2).2 = .ok w
      ∧ w.start = sampleView4.start ∧ w.stop = sampleView4.stop
      ∧ w.as_slice = sampleView4.as_slice :=
  snap_merge_roundtrip sampleView4 (sampleView4.split 2).1 (sampleView4.split 2).2 2 rfl

/-- Claim C2: for every view `v` with range `[start, stop)` and every
offset `at`: if `at ≤ v.len()`, `snap(v, at)` produces two views over
the same buffer, the left covering `[start, start+at)` and the right
covering `[start+at, stop)` (either may be empty); if `at > v.len()`,
`snap` fails with the out-of-range error and never silently clamps. -/
theorem snap_spec {α : Type} (s : Snap α) (i : Nat) :
    (i ≤ s.len → ∃ l r, Snap.snap s i = .ok (l, r)
      ∧ l.arc = s.arc ∧ l.ptr = s.ptr ∧ l.buf = s.buf
      ∧ l.start = s.start ∧ l.stop = s.start + i
      ∧ r.arc = s.arc ∧ r.ptr = s.ptr ∧ r.buf = s.buf
      ∧ r.start = s.start + i ∧ r.stop = s.stop)
    ∧ (s.len < i → Snap.snap s i = .error "`snap`-ing out of range") := by
  constructor
  · intro h
    exact ⟨(s.split i).1, (s.split i).2,
      (snap_eq_ok_iff s i (s.split i)).mpr ⟨h, rfl⟩,
      rfl, rfl, rfl, rfl, rfl, rfl, rfl, rfl, rfl, rfl⟩
  · intro h
    unfold Snap.snap
    rw [if_neg (by omega)]

/-- Witness for C2 on a length-4 view: `at = 2` is in range and splits
into `[0,2)` and `[2,4)`; `at = 8` is out of range and fails. -/
theorem snap_spec_witness :
    (2 ≤ sampleView4.len ∧ (∃ l r, Snap.snap sampleView4 2 = .ok (l, r)
      ∧ l.arc = sampleView4.arc ∧ l.ptr = sampleView4.ptr ∧ l.buf = sampleView4.buf
      ∧ l.start = sampleView4.start ∧ l.stop = sampleView4.start + 2
      ∧ r.arc = sampleView4.arc ∧ r.ptr = sampleView4.ptr ∧ r.buf = sampleView4.buf
      ∧ r.start = sampleView4.start + 2 ∧ r.stop = sampleView4.stop))
    ∧ (sampleView4.len < 8
      ∧ Snap.snap sampleView4 8 = .error "`snap`-ing out of range") :=
  ⟨⟨by decide, (snap_spec sampleView4 2).1 (by decide)⟩,
   ⟨by decide, (snap_spec sampleView4 8).2 (by decide)⟩⟩

/-- Claim C3: `try_unwrap(view)` succeeds iff the view's buffer handle is
the sole remaining reference to the shared buffer (strong count 1) at
the moment of the call; on success it returns the entire backing buffer
(the whole original vector passed to `new`, discarding the view's own
sub-range bounds even when the view is a strict fragment); on failure it
returns the original view unchanged (same buffer handle, same range) as
the error value. -/
theorem try_unwrap_spec {α : Type} (v : List α) (m0 m : Mem) (s : Snap α)
    (hder : DerivedFrom (Snap.new v m0).1 s) :
    (m.counts s.arc = 1 → Snap.try_unwrap s m = .ok v)
    ∧ (m.counts s.arc ≠ 1 → Snap.try_unwrap s m = .error s)
    ∧ (∀ w, Snap.try_unwrap s m = .ok w → m.counts s.arc = 1 ∧ w = v) := by
  obtain ⟨-, -, hbuf⟩ := hder.origin_eq
  have hv : s.buf = v := hbuf
  refine ⟨?_, ?_, ?_⟩
  · intro h1
    unfold Snap.try_unwrap
    rw [if_pos h1, hv]
  · intro h1
    unfold Snap.try_unwrap
    rw [if_neg h1]
  · intro w hw
    unfold Snap.try_unwrap at hw
    by_cases h1 : m.counts s.arc = 1
    · rw [if_pos h1] at hw
      simp only [Except.ok.injEq] at hw
      exact ⟨h1, hw ▸ hv⟩
    · rw [if_neg h1] at hw
      simp at hw

/-- Witness for C3: the left fragment `[0,2)` of `new([0,1,2,3])` split
at 2, in a memory where its `Arc`'s strong count is 1, unwraps to the
whole buffer `[0,1,2,3]`, not merely the fragment's contents `[0,1]`. -/
theorem try_unwrap_spec_witness :
    Snap.try_unwrap (sampleView4.split 2).1 ⟨fun _ => 1, 9⟩ = .ok [0, 1, 2, 3] :=
  (try_unwrap_spec [0, 1, 2, 3] Mem.init ⟨fun _ => 1, 9⟩ (sampleView4.split 2).1
    (DerivedFrom.splitLeft (DerivedFrom.refl sampleView4) (by decide))).1 rfl

/-- Counterexample to C4 as stated: `snap(0)` on an empty view is a
valid split, but its two outputs coincide (both empty over the same
point), so merging them in reversed order satisfies the contiguity
assertion and SUCCEEDS instead of failing with the non-contiguous-merge
error. -/
theorem merge_swapped_empty_succeeds :
    Snap.snap (Snap.new ([] : List Nat) Mem.init).1 0
        = .ok (⟨1, 0, [], 0, 0⟩, ⟨1, 0, [], 0, 0⟩)
    ∧ Snap.merge (⟨1, 0, ([] : List Nat), 0, 0⟩ : Snap Nat) ⟨1, 0, [], 0, 0⟩
        = .ok ⟨1, 0, [], 0, 0⟩ :=
  ⟨rfl, rfl⟩

/-- Claim C4 (amended): `merge(left, right)` on two same-origin views
(equal data pointers) succeeds iff `left.stop = right.start`, producing
a view covering `[left.start, right.stop)`; when contiguity fails (a
gap, an overlap, or a reversal that breaks contiguity) it fails with the
non-contiguous-merge error and is not automatically corrected.
Consequently `merge(right, left)` on a valid split of a nonempty view
fails with that error (for an empty view the two outputs of `snap`
coincide, so the reversed order is the original order and succeeds). -/
theorem merge_spec (α : Type) :
    (∀ l r : Snap α, l.ptr = r.ptr →
      ((∃ w, Snap.merge l r = .ok w ∧ w.start = l.start ∧ w.stop = r.stop) ↔
        l.stop = r.start)
      ∧ (l.stop ≠ r.start →
          Snap.merge l r = .error "merging non-continuogus `Snaps`"))
    ∧ (∀ (s : Snap α) (i : Nat) (l r : Snap α), 0 < s.len →
        Snap.snap s i = .ok (l, r) →
        Snap.merge r l = .error "merging non-continuogus `Snaps`") := by
  constructor
  · intro l r hp
    constructor
    · constructor
      · rintro ⟨w, hw, -, -⟩
        exact ((merge_eq_ok_iff l r w).mp hw).2.1
      · intro hadj
        exact ⟨⟨l.arc, l.ptr, l.buf, l.start, r.stop⟩,
          (merge_eq_ok_iff l r _).mpr ⟨hp, hadj, rfl⟩, rfl, rfl⟩
    · intro hadj
      unfold Snap.merge
      rw [if_pos hp, if_neg hadj]
  · intro s i l r hlen hsnap
    obtain ⟨hle, hp⟩ := (snap_eq_ok_iff s i (l, r)).mp hsnap
    have hl : l = (s.split i).1 := by rw [← hp]
    have hr : r = (s.split i).2 := by rw [← hp]
    subst hl
    subst hr
    have hne : (s.split i).2.stop ≠ (s.split i).1.start := by
      simp only [Snap.split]
      simp only [Snap.len] at hlen
      omega
    have hpe : (s.split i).2.ptr = (s.split i).1.ptr := rfl
    unfold Snap.merge
    rw [if_pos hpe, if_neg hne]

/-- Witness for the amended C4 on `new([0,1,2,3]).snap(2)`: the
contiguous pair merges to a view over `[0,4)`, and the swapped merge
fails with the non-contiguous error. -/
theorem merge_spec_witness :
    ((sampleView4.split 2).1.ptr = (sampleView4.split 2).2.ptr
      ∧ (∃ w, Snap.merge (sampleView4.split 2).1 (sampleView4.split 2).2 = .ok w
          ∧ w.start = (sampleView4.split 2).1.start
          ∧ w.stop = (sampleView4.split 2).2.stop))
    ∧ (0 < sampleView4.len
      ∧ Snap.merge (sampleView4.split 2).2 (sampleView4.split 2).1
          = .error "merging non-continuogus `Snaps`") :=
  ⟨⟨rfl, ((merge_spec Nat).1 (sampleView4.split 2).1 (sampleView4.split 2).2 rfl).1.mpr rfl⟩,
   ⟨by decide, (merge_spec Nat).2 sampleView4 2 (sampleView4.split 2).1
      (sampleView4.split 2).2 (by decide) rfl⟩⟩

/-- Counterexample to C5 as stated: two views built by two separate
`new(vec![])` calls reference different allocations (different `Arc`
control blocks) and have equal contents, yet both empty vectors report
the same dangling `as_ptr()`, so the origin assertion passes and `merge`
SUCCEEDS instead of failing with the incompatible-origin error. -/
theorem merge_separate_empty_origins_succeeds :
    (Snap.new ([] : List Nat) Mem.init).1.arc
        ≠ (Snap.new ([] : List Nat) (Snap.new ([] : List Nat) Mem.init).2).1.arc
    ∧ Snap.merge (Snap.new ([] : List Nat) Mem.init).1
        (Snap.new ([] : List Nat) (Snap.new ([] : List Nat) Mem.init).2).1
        = .ok ⟨1, 0, [], 0, 0⟩ :=
  ⟨by decide, rfl⟩

/-- Claim C5 (amended): `merge` fails with the incompatible-origin error
whenever the two views' buffer data pointers (`buf.as_ptr()`) differ;
any two views derived from two separate `new` calls on NONEMPTY vectors
sit over distinct live allocations with distinct data pointers, so
`merge` fails for them even when the two buffers' contents are equal.
Two separately-created EMPTY buffers, however, share the dangling data
pointer and pass the origin check (see
`merge_separate_empty_origins_succeeds`). -/
theorem merge_cross_origin (α : Type) :
    (∀ l r : Snap α, l.ptr ≠ r.ptr →
      Snap.merge l r = .error "merging `Snaps` of different origins")
    ∧ (∀ (m : Mem) (v1 v2 : List α), v1 ≠ [] → v2 ≠ [] →
        ∀ s1 s2 : Snap α,
          DerivedFrom (Snap.new v1 m).1 s1 →
          DerivedFrom (Snap.new v2 (Snap.new v1 m).2).1 s2 →
          s1.ptr ≠ s2.ptr
          ∧ Snap.merge s1 s2 = .error "merging `Snaps` of different origins") := by
  have base : ∀ l r : Snap α, l.ptr ≠ r.ptr →
      Snap.merge l r = .error "merging `Snaps` of different origins" := by
    intro l r hp
    unfold Snap.merge
    rw [if_neg hp]
  refine ⟨base, ?_⟩
  intro m v1 v2 h1 h2 s1 s2 hd1 hd2
  obtain ⟨-, hp1, -⟩ := hd1.origin_eq
  obtain ⟨-, hp2, -⟩ := hd2.origin_eq
  have e1 : s1.ptr = m.nextAddr + 1 := by
    rw [hp1]
    cases v1 with
    | nil => exact absurd rfl h1
    | cons a t => simp [Snap.new]
  have e2 : s2.ptr = m.nextAddr + 3 := by
    rw [hp2]
    cases v2 with
    | nil => exact absurd rfl h2
    | cons a t => simp [Snap.new]
  have hne : s1.ptr ≠ s2.ptr := by omega
  exact ⟨hne, base s1 s2 hne⟩

/-- Witness for the amended C5: two separate `new` calls on the equal
nonempty contents `[0]` produce views whose merge fails with the
incompatible-origin error. -/
theorem merge_cross_origin_witness :
    Snap.merge (Snap.new [(0 : Nat)] Mem.init).1
        (Snap.new [0] (Snap.new [(0 : Nat)] Mem.init).2).1
      = .error "merging `Snaps` of different origins" :=
  ((merge_cross_origin Nat).2 Mem.init [0] [0] (by decide) (by decide)
    (Snap.new [(0 : Nat)] Mem.init).1
    (Snap.new [0] (Snap.new [(0 : Nat)] Mem.init).2).1
    (DerivedFrom.refl _) (DerivedFrom.refl _)).2

/-- Claim C6: for every view `v` and every `chunk_size k ≥ 1`,
`chunks(v, k)` returns an ordered, nonempty sequence of views, each
same-origin with `v`, each adjacent to its successor (each chunk's stop
equals the next chunk's start), whose ranges concatenate to reproduce
`v`'s range exactly (adjacent chain from `v.start` to `v.stop`), so
folding the sequence with `merge` reconstructs the original view. -/
theorem chunks_reconstruct {α : Type} (s : Snap α) (k : Nat) (hk : 0 < k) :
    ∃ cs, Snap.chunks s k = .ok cs
      ∧ cs ≠ []
      ∧ (∀ c ∈ cs, c.arc = s.arc ∧ c.ptr = s.ptr ∧ c.buf = s.buf)
      ∧ List.Chain' (fun a b => a.stop = b.start) cs
      ∧ cs.head?.map Snap.start = some s.start
      ∧ cs.getLast?.map Snap.stop = some s.stop
      ∧ foldMerge cs = .ok s := by
  have hk0 : k ≠ 0 := Nat.pos_iff_ne_zero.mp hk
  refine ⟨Snap.chunksGo s k hk, ?_, chunksGo_ne_nil s k hk, chunksGo_origin s k hk,
    chunksGo_chain s k hk, chunksGo_head_start s k hk, chunksGo_getLast_stop s k hk,
    foldMerge_chunksGo s k hk⟩
  unfold Snap.chunks
  rw [dif_neg hk0]

/-- Witness for C6: the spec scenario `chunks([0..16), 5)`. -/
theorem chunks_reconstruct_witness :
    0 < 5 ∧ ∃ cs, Snap.chunks sampleView16 5 = .ok cs
      ∧ cs ≠ []
      ∧ (∀ c ∈ cs, c.arc = sampleView16.arc ∧ c.ptr = sampleView16.ptr
          ∧ c.buf = sampleView16.buf)
      ∧ List.Chain' (fun a b => a.stop = b.start) cs
      ∧ cs.head?.map Snap.start = some sampleView16.start
      ∧ cs.getLast?.map Snap.stop = some sampleView16.stop
      ∧ foldMerge cs = .ok sampleView16 :=
  ⟨by decide, chunks_reconstruct sampleView16 5 (by decide)⟩

/-- Counterexample to C7 as stated: `chunks` on an EMPTY view with
`chunk_size = 1` returns one (empty) chunk, while the claimed count is
`ceil(0 / 1) = 0` — the final remainder is pushed unconditionally, so an
empty view yields one chunk, not zero. -/
theorem chunks_count_empty_view :
    (Snap.chunks (Snap.new ([] : List Nat) Mem.init).1 1).map List.length = .ok 1
    ∧ ((Snap.new ([] : List Nat) Mem.init).1.len + 1 - 1) / 1 = 0 := by
  constructor
  · unfold Snap.chunks
    rw [dif_neg (by decide), chunksGo_stop (Nat.pos_of_ne_zero (by decide)) (by decide)]
    rfl
  · rfl

/-- Claim C7 (amended): for every view `v` and every `chunk_size k ≥ 1`,
the number of views returned by `chunks(v, k)` equals
`ceil(v.len() / k)` whenever `v` is nonempty; an empty view yields
exactly one (empty) chunk instead of `ceil(0 / k) = 0`. -/
theorem chunks_count {α : Type} (s : Snap α) (k : Nat) (hk : 0 < k) :
    (0 < s.len → (Snap.chunks s k).map List.length = .ok ((s.len + k - 1) / k))
    ∧ (s.len = 0 → (Snap.chunks s k).map List.length = .ok 1) := by
  have hk0 : k ≠ 0 := Nat.pos_iff_ne_zero.mp hk
  have hchunks : Snap.chunks s k = .ok (Snap.chunksGo s k hk) := by
    unfold Snap.chunks
    rw [dif_neg hk0]
  constructor
  · intro hlen
    rw [hchunks]
    show Except.ok (Snap.chunksGo s k hk).length = _
    rw [chunksGo_length s k hk, if_neg (by omega)]
  · intro hlen
    rw [hchunks]
    show Except.ok (Snap.chunksGo s k hk).length = _
    rw [chunksGo_length s k hk, if_pos hlen]

/-- Witness for the amended C7: `chunks([0..16), 5)` has
`ceil(16 / 5) = 4` chunks. -/
theorem chunks_count_witness :
    0 < 5 ∧ 0 < sampleView16.len
    ∧ (Snap.chunks sampleView16 5).map List.length
        = .ok ((sampleView16.len + 5 - 1) / 5) :=
  ⟨by decide, by decide, (chunks_count sampleView16 5 (by decide)).1 (by decide)⟩

/-- Counterexample to C8 as stated: the `Index` impl for `Snap` (one of
the two element-access surfaces the claim covers) delegates to slice
`Index::index`, which panics at an out-of-bounds position — modelled as
an error — instead of returning an absent result: `new([0,1,2,3])[5]`
fails. -/
theorem index_oob_fails :
    Snap.index sampleView4 5 = .error "index out of bounds" :=
  rfl

/-- Claim C8 (amended): the checked accessor `get` returns an absent
result for out-of-bounds access — `none` at a position `i ≥ len` and
`none` for a sub-range whose end exceeds the view's length — while the
`Index` operator (`v[i]`) fails (panics) at an out-of-bounds position
rather than returning an absent value. -/
theorem get_oob_none (α : Type) :
    (∀ (s : Snap α) (i : Nat), s.len ≤ i → Snap.get s i = none)
    ∧ (∀ (s : Snap α) (lo hi : Nat), s.len < hi → Snap.get_range s lo hi = none)
    ∧ (∀ (s : Snap α) (i : Nat), s.len ≤ i →
        Snap.index s i = .error "index out of bounds") := by
  have hsl : ∀ s : Snap α, s.as_slice.length ≤ s.len := by
    intro s
    simp only [Snap.as_slice, Snap.len, List.length_take, List.length_drop]
    omega
  have hget : ∀ (s : Snap α) (i : Nat), s.len ≤ i → s.as_slice[i]? = none := by
    intro s i h
    exact List.getElem?_eq_none (le_trans (hsl s) h)
  refine ⟨?_, ?_, ?_⟩
  · intro s i h
    exact hget s i h
  · intro s lo hi h
    unfold Snap.get_range
    rw [if_neg]
    rintro ⟨-, h2⟩
    have := hsl s
    omega
  · intro s i h
    unfold Snap.index
    rw [hget s i h]

/-- Witness for the amended C8 on a length-4 view: `get 5` and
`get (0..5)` return `none`, and the `Index` operator fails at
position 6. -/
theorem get_oob_none_witness :
    (sampleView4.len ≤ 5 ∧ Snap.get sampleView4 5 = none)
    ∧ (sampleView4.len < 5 ∧ Snap.get_range sampleView4 0 5 = none)
    ∧ (sampleView4.len ≤ 6 ∧ Snap.index sampleView4 6 = .error "index out of bounds") :=
  ⟨⟨by decide, (get_oob_none Nat).1 sampleView4 5 (by decide)⟩,
   ⟨by decide, (get_oob_none Nat).2.1 sampleView4 0 5 (by decide)⟩,
   ⟨by decide, (get_oob_none Nat).2.2 sampleView4 6 (by decide)⟩⟩

/-- Claim C9: for every view `v`, `chunks(v, 0)` is rejected as a
failure: the capacity computation `(len + 0 - 1) / 0` panics (divide by
zero — with an empty view a debug build already panics at the
subtraction), so the call fails before the loop can run; it neither
loops indefinitely (the embedding is a total function) nor returns a
result. -/
theorem chunks_zero_fails {α : Type} (s : Snap α) :
    Snap.chunks s 0 = .error "attempt to divide by zero" :=
  rfl

/-- Claim C10 (implicit): element positions are relative to the view's
own start, not absolute buffer indices — for every well-formed view
(range inside the buffer, per the data-model invariant) and every
`i < v.len()`, `v.get(i)` returns `some` of the backing buffer's element
at absolute index `start + i`, and `v.get(i) = none` for every
`i ≥ v.len()`. -/
theorem get_relative_to_start {α : Type} (s : Snap α)
    (hwf1 : s.start ≤ s.stop) (hwf2 : s.stop ≤ s.buf.length) (i : Nat) :
    (i < s.len → ∃ x, s.buf[s.start + i]? = some x ∧ Snap.get s i = some x)
    ∧ (s.len ≤ i → Snap.get s i = none) := by
  constructor
  · intro h
    have hlt : s.start + i < s.buf.length := by
      simp only [Snap.len] at h
      omega
    refine ⟨s.buf[s.start + i], List.getElem?_eq_getElem hlt, ?_⟩
    unfold Snap.get Snap.as_slice
    rw [List.getElem?_take, if_pos (by simpa [Snap.len] using h),
      List.getElem?_drop]
    exact List.getElem?_eq_getElem hlt
  · intro h
    unfold Snap.get Snap.as_slice
    rw [List.getElem?_take, if_neg (by simp only [Snap.len] at h; omega)]

/-- Witness for C10: in the right fragment `[1,4)` of `new([10,20,30,40])`
split at 1, position 0 of the fragment is absolute index 1 of the
backing buffer (element `20`). -/
theorem get_relative_to_start_witness :
    ∃ x, (((Snap.new [10, 20, 30, 40] Mem.init).1.split 1).2).buf[
        (((Snap.new [10, 20, 30, 40] Mem.init).1.split 1).2).start + 0]? = some x
      ∧ Snap.get (((Snap.new [10, 20, 30, 40] Mem.init).1.split 1).2) 0 = some x :=
  (get_relative_to_start (((Snap.new [10, 20, 30, 40] Mem.init).1.split 1).2)
    (by decide) (by decide) 0).1 (by decide)
